import Mathlib

/-!
Verification of the session/transport core of go-ora (`v2/network/session.go`),
shallowly embedded in Lean: byte buffers are `List Nat` (each entry a byte value),
the session's cursor state is an explicit structure, and the fallible readers
return an explicit result type.  Definitions mirror the Go source; the few spots
where the modelled code lives outside the provided sources are marked
`Modelled from the spec:` in their doc comments.
-/

namespace GoOra

set_option maxRecDepth 100000

/-- Big-endian value of a byte string (most significant byte first),
as computed by `binary.BigEndian.Uint64` on a left-zero-padded 8-byte buffer. -/
def beVal (bs : List Nat) : Nat := bs.foldl (fun a b => a * 256 + b) 0

/-- `k` big-endian bytes of `n` (mirrors `binary.BigEndian.PutUintXX`:
the value is truncated to `k` bytes, most significant first). -/
def beBytes : Nat → Nat → List Nat
  | 0, _ => []
  | k + 1, n => beBytes k (n / 256) ++ [n % 256]

/-- `k` little-endian bytes of `n` (mirrors `binary.LittleEndian.PutUintXX`). -/
def leBytes (k : Nat) (n : Nat) : List Nat := (beBytes k n).reverse

/-- `bytes.TrimLeft(temp, "\x00")`: strip leading zero bytes. -/
def trimZeros (bs : List Nat) : List Nat := bs.dropWhile (· == 0)

/-- Reinterpret a `uint64` bit pattern as Go's `int64` (two's complement). -/
def toInt64 (n : Nat) : Int :=
  if n % 2 ^ 64 < 2 ^ 63 then ((n % 2 ^ 64 : Nat) : Int)
  else ((n % 2 ^ 64 : Nat) : Int) - 2 ^ 64

/-- The `uint64` bit pattern of a Go `int64` value (conversion `uint64(num)`). -/
def int64ToU64 (z : Int) : Nat := (z.emod (2 ^ 64)).toNat

/-- Go's `ret * -1` on `int64`: negation with 64-bit wrap-around. -/
def int64Neg (z : Int) : Int := toInt64 (int64ToU64 (-z))

/-- Snapshot entry pushed by `SaveState` (source `sessionState`, lines 24-30). -/
structure SessionState where
  summary : Option Nat
  sendPcks : List (List Nat)
  inBuffer : List Nat
  outBuffer : List Nat
  index : Nat
deriving DecidableEq

/-- The session codec state (source `Session`, lines 32-62), restricted to the
fields the claims touch.  `summary` is modelled by its return code
(`SummaryObject` itself is outside the provided sources); `sendPcks` holds the
serialized bytes (`pck.bytes()`) of each packet written so far.  Defaults mirror
`NewSession` (lines 64-75): `UseBigClrChunks = false`, `ClrChunkSize = 0x40`. -/
structure Session where
  summary : Option Nat := none
  sendPcks : List (List Nat) := []
  inBuffer : List Nat := []
  outBuffer : List Nat := []
  index : Nat := 0
  states : List SessionState := []
  useBigClrChunks : Bool := false
  clrChunkSize : Nat := 0x40
deriving DecidableEq

/-- Result of a fallible Go call: a value, an `error` return, or a runtime
panic (out-of-range slice).  The source returns `(value, error)` pairs; the one
place where Go returns a partial value *together* with a non-nil error
(`GetClr` big-chunks mode breaking on a length-read error, line 938) is noted
at its definition and exercised by no claim. -/
inductive RRes (α : Type) where
  | ok : α → RRes α
  | err : String → RRes α
  | crash : RRes α
deriving DecidableEq

/-- Append bytes to the out-buffer (`outBuffer.Write` / `WriteByte`, also
`PutBytes`, lines 586-589). -/
def Session.appendOut (s : Session) (bs : List Nat) : Session :=
  { s with outBuffer := s.outBuffer ++ bs }

/-- `read` (lines 323-338) over a pre-seeded in-buffer: serve
`inBuffer[index : index+numBytes]` and advance the cursor.  When the requested
bytes are not present the source pulls exactly one packet from the wire, which
must be DATA; with no wire attached that fetch yields the non-data error
(the wire path itself is modelled separately for claim C10 by `readM`).
The codec round-trip claims seed the in-buffer with exactly the encoder's
output, so this branch is not taken there. -/
def Session.read (s : Session) (numBytes : Nat) : RRes (List Nat × Session) :=
  if s.index + numBytes ≤ s.inBuffer.length then
    RRes.ok ((s.inBuffer.drop s.index).take numBytes,
      { s with index := s.index + numBytes })
  else RRes.err "the packet received is not data packet"

/-- `GetByte` (lines 803-809). -/
def Session.getByte (s : Session) : RRes (Nat × Session) :=
  match s.read 1 with
  | RRes.ok (rb, s1) => RRes.ok (rb.headD 0, s1)
  | RRes.err e => RRes.err e
  | RRes.crash => RRes.crash

/-- The raw `size`-byte encoding written by the non-compress branch of
`PutUint`/`PutInt` (lines 643-666, 720-743): sizes 2, 4, 8 get the value in the
requested endianness, any other size leaves the freshly allocated buffer as
zero bytes (the Go `switch` has no matching case). -/
def fixedBytes (size : Nat) (bigEndian : Bool) (num : Nat) : List Nat :=
  if size = 2 ∨ size = 4 ∨ size = 8 then
    (if bigEndian then beBytes size num else leBytes size num)
  else List.replicate size 0

/-- `PutUint` (lines 595-667), with the argument already converted to its
`uint64` bit pattern (the Go type switch).  Note the `size == 1` single raw
byte bypass comes *before* the compress branch here. -/
def Session.putUint (s : Session) (num : Nat) (size : Nat)
    (bigEndian compress : Bool) : Session :=
  let num := num % 2 ^ 64
  if size = 1 then s.appendOut [num % 256]
  else if compress then
    let temp := trimZeros (beBytes 8 num)
    let size := if size > temp.length then temp.length else size
    if size = 0 then s.appendOut [0]
    else s.appendOut ([size % 256] ++ temp)
  else s.appendOut (fixedBytes size bigEndian num)

/-- `PutInt` (lines 669-745).  In the compress branch the significant-byte
buffer `temp` is computed from the *two's complement* of `num` before the sign
test, and a negative `num` replaces the length byte by `size & 0x80` (bitwise
AND — zero for every `size < 128`); the non-compress branch checks `size == 1`
*after* the compress test, unlike `PutUint`. -/
def Session.putInt (s : Session) (num : Int) (size : Nat)
    (bigEndian compress : Bool) : Session :=
  let n64 := int64ToU64 num
  if compress then
    let temp := trimZeros (beBytes 8 n64)
    let size := if size > temp.length then temp.length else size
    if size = 0 then s.appendOut [0]
    else
      let size := if num < 0 then size &&& 0x80 else size
      s.appendOut ([size % 256] ++ temp)
  else
    if size = 1 then s.appendOut [n64 % 256]
    else s.appendOut (fixedBytes size bigEndian n64)

/-- `GetInt64` (lines 811-846).  With `compress` the first byte read is the
length byte: bit `0x80` sets the negative flag, the rest is the byte count and
big-endian is forced.  The value is rebuilt by right- (big-endian) or left-
(little-endian) aligning the bytes in an 8-byte buffer; a length byte above 8
would make `copy(temp[8-size:], rb)` slice out of range, a runtime panic. -/
def Session.getInt64 (s : Session) (size0 : Nat)
    (compress bigEndian0 : Bool) : RRes (Int × Session) :=
  match (if compress then
      match s.read 1 with
      | RRes.ok (rb, s1) =>
        let sz := rb.headD 0
        if sz &&& 0x80 > 0 then RRes.ok ((true, sz &&& 0x7F, true), s1)
        else RRes.ok ((false, sz, true), s1)
      | RRes.err e => RRes.err e
      | RRes.crash => RRes.crash
    else RRes.ok ((false, size0, bigEndian0), s)) with
  | RRes.err e => RRes.err e
  | RRes.crash => RRes.crash
  | RRes.ok ((negFlag, size, bigEndian), s1) =>
    if size = 0 then RRes.ok (0, s1)
    else
      match s1.read size with
      | RRes.err e => RRes.err e
      | RRes.crash => RRes.crash
      | RRes.ok (rb, s2) =>
        if 8 < size then RRes.crash
        else
          let v := if bigEndian then beVal rb else beVal rb.reverse
          let ret := toInt64 v
          RRes.ok (if negFlag then int64Neg ret else ret, s2)

/-- `GetInt` (lines 847-853): `int` is 64-bit, the cast is the identity. -/
def Session.getInt (s : Session) (size : Nat)
    (compress bigEndian : Bool) : RRes (Int × Session) :=
  s.getInt64 size compress bigEndian

/-- The chunk-emitting loop of `PutClr` (lines 751-765): successive slices of at
most `ClrChunkSize` bytes, each preceded by its length — a single raw byte in
small-chunks mode, a 4-byte compressed integer when `UseBigClrChunks` is set.
The Go loop advances `start` by `ClrChunkSize` each iteration, so `data.length`
steps of fuel suffice whenever `ClrChunkSize ≥ 1` (with `ClrChunkSize = 0` the
source loops forever). -/
def Session.putClrChunks (s : Session) (data : List Nat) (fuel : Nat) : Session :=
  match fuel with
  | 0 => s
  | fuel + 1 =>
    if data.length = 0 then s
    else
      let temp := data.take s.clrChunkSize
      let s1 := if s.useBigClrChunks then s.putInt (temp.length : Int) 4 true true
                else s.appendOut [temp.length % 256]
      let s2 := s1.appendOut temp
      s2.putClrChunks (data.drop s.clrChunkSize) fuel

/-- `PutClr` (lines 747-773): length 0 is a single `0x00`; lengths 1..0xFC are
one length byte plus the raw bytes; longer strings get a `0xFE` marker, the
chunk loop, and a terminating `0x00`. -/
def Session.putClr (s : Session) (data : List Nat) : Session :=
  let dataLen := data.length
  if dataLen > 0xFC then
    (((s.appendOut [0xFE]).putClrChunks data dataLen).appendOut [0])
  else if dataLen = 0 then s.appendOut [0]
  else s.appendOut ([dataLen % 256] ++ data)

/-- The legacy `0xFF` run inside small-chunks `GetClr` (lines 900-915): bytes
are accumulated until a `0x00` or until the whole accumulated buffer reaches
4 KiB.  `acc` is the buffer gathered so far across chunks (`buff` in the
source — the cap compares against its total length). -/
def Session.getClrLegacyRun (s : Session) (acc : List Nat) (fuel : Nat) :
    RRes (List Nat × Session) :=
  match fuel with
  | 0 => RRes.err "out of fuel"
  | fuel + 1 =>
    match s.getByte with
    | RRes.err e => RRes.err e
    | RRes.crash => RRes.crash
    | RRes.ok (b, s1) =>
      if b = 0 then RRes.ok (acc, s1)
      else
        let acc := acc ++ [b]
        if acc.length ≥ 4096 then RRes.ok (acc, s1)
        else s1.getClrLegacyRun acc fuel

/-- The small-chunks decoding loop of `GetClr` (lines 891-927): a `0x00` length
byte terminates, `0xFF` switches to the legacy null-terminated run, any length
byte `≥ 64` is the protocol error `invalid chunk size`, otherwise that many
bytes are read and accumulated.  Each iteration consumes at least one byte, so
in-buffer-length fuel suffices; the claims supply ample fuel. -/
def Session.getClrSmallChunks (s : Session) (acc : List Nat) (fuel : Nat) :
    RRes (List Nat × Session) :=
  match fuel with
  | 0 => RRes.err "out of fuel"
  | fuel + 1 =>
    match s.getByte with
    | RRes.err e => RRes.err e
    | RRes.crash => RRes.crash
    | RRes.ok (h, s1) =>
      if h = 0 then RRes.ok (acc, s1)
      else if h = 0xFF then s1.getClrLegacyRun acc fuel
      else if h ≥ 64 then RRes.err ("invalid chunk size: " ++ toString h)
      else
        match s1.read h with
        | RRes.err e => RRes.err e
        | RRes.crash => RRes.crash
        | RRes.ok (dat, s2) => s2.getClrSmallChunks (acc ++ dat) fuel

/-- The big-chunks decoding loop of `GetClr` (lines 930-948): 4-byte compressed
lengths are read until one is zero, each followed by that many raw bytes.  The
source reaches this loop only with `UseBigClrChunks` set, so the in-loop mode
test always picks the 4-byte read.  On a length-read error the source breaks
and returns the bytes gathered so far *together with* the error (named return
values); no claim exercises that branch, so the error alone is kept here.  A
negative decoded length would make the source's `session.read(size1)` slice
with a reversed range — a runtime panic. -/
def Session.getClrBigChunks (s : Session) (acc : List Nat) (fuel : Nat) :
    RRes (List Nat × Session) :=
  match fuel with
  | 0 => RRes.err "out of fuel"
  | fuel + 1 =>
    match s.getInt 4 true true with
    | RRes.err e => RRes.err e
    | RRes.crash => RRes.crash
    | RRes.ok (size1, s1) =>
      if size1 = 0 then RRes.ok (acc, s1)
      else if size1 < 0 then RRes.crash
      else
        match s1.read size1.toNat with
        | RRes.err e => RRes.err e
        | RRes.crash => RRes.crash
        | RRes.ok (rb, s2) => s2.getClrBigChunks (acc ++ rb) fuel

/-- `GetClr` (lines 870-949): a leading size byte of `0x00` or `0xFF` decodes
to empty, any other value below `0xFE` is a direct length, and `0xFE` enters
the chunked form — the small-chunks loop or the big-chunks loop according to
`UseBigClrChunks`. -/
def Session.getClr (s : Session) (fuel : Nat) : RRes (List Nat × Session) :=
  match s.getByte with
  | RRes.err e => RRes.err e
  | RRes.crash => RRes.crash
  | RRes.ok (size, s1) =>
    if size = 0 ∨ size = 0xFF then RRes.ok ([], s1)
    else if size ≠ 0xFE then s1.read size
    else if ¬ s1.useBigClrChunks then s1.getClrSmallChunks [] fuel
    else s1.getClrBigChunks [] fuel

/-- `GetString` (lines 581-584): `ret, err := GetClr(); return string(ret[:length]), err`.
The slice `ret[:length]` is evaluated unconditionally; when the decoded CLR is
shorter than `length` it is out of range — a runtime panic, not a value.  On
the error path `ret` is nil in every branch a claim exercises (see
`getClrBigChunks` for the one partial-value exception), so `ret[:length]`
panics there as well unless `length = 0`. -/
def Session.getString (s : Session) (length : Nat) (fuel : Nat) :
    RRes (List Nat × Session) :=
  match s.getClr fuel with
  | RRes.ok (ret, s1) =>
    if length ≤ ret.length then RRes.ok (ret.take length, s1) else RRes.crash
  | RRes.err e => if length = 0 then RRes.err e else RRes.crash
  | RRes.crash => RRes.crash

/-- The REDIRECT body split (lines 473-479): `length := strings.Index(data, "\x00")`;
with header flag bit `0x02` set and a null at a positive index the address is
`data[:length]` and the reconnect data is `data[length:]` — the suffix *from*
the null, null byte included; otherwise the whole body is the address and the
reconnect data stays empty.  `Connect` (line 201) then copies the reconnect
data verbatim into `connOption.connData`. -/
def redirectSplit (flag : Nat) (data : List Nat) : List Nat × List Nat :=
  match data.findIdx? (· == 0) with
  | some k => if flag &&& 2 ≠ 0 ∧ 0 < k then (data.take k, data.drop k) else (data, [])
  | none => (data, [])

/-- The segmentation loop of `Write` (lines 296-319): emit slices of exactly
`segmentLen` bytes while more than `segmentLen` remain, then one final slice
with whatever is left (skipped when nothing is).  Fuel of `data.length` covers
every `segmentLen ≥ 1` (the source loops forever when `SessionDataUnit = 20`). -/
def segLoop (segmentLen : Nat) (data : List Nat) (fuel : Nat) : List (List Nat) :=
  match fuel with
  | 0 => []
  | fuel + 1 =>
    if segmentLen < data.length then
      data.take segmentLen :: segLoop segmentLen (data.drop segmentLen) fuel
    else if data.length ≠ 0 then [data]
    else []

/-- `Write` (lines 280-321) on the success path, as the list of DATA-packet
payloads it emits: an empty out-buffer yields a single empty payload, anything
else is cut by `segLoop` at `SessionDataUnit - 20`. -/
def sessionWrite (sdu : Nat) (out : List Nat) : List (List Nat) :=
  if out.length = 0 then [[]]
  else segLoop (sdu - 20) out out.length

/-- Modelled from the spec: the RESEND packet-type tag.  The numeric packet
type constants live in `packet.go`, which is not among the provided sources;
the spec (§6, Type tags) fixes them to the Oracle TNS values, where RESEND
is 11.  Only its role as the tag matched against header byte 4 matters to the
claims. -/
def RESEND : Nat := 11

/-- The inner `readPacketData` loop of `readPacket` (lines 376-443), with the
wire modelled as the list of raw frames (header ++ body, already assembled)
the server will deliver.  The packet type is header byte 4; a RESEND frame
makes the loop write the serialized bytes of every packet in `sendPcks`, in
order, and read again; any other frame is returned together with the frames
still pending.  `trials` is checked against the cap of 3 before each read.
The returned pair is (bytes written to the transport, loop result). -/
def readPacketData (sendPcks : List (List Nat)) :
    Nat → List (List Nat) → List (List Nat) × RRes (List Nat × List (List Nat))
  | trials, incoming =>
    if trials > 3 then ([], RRes.err "abnormal response")
    else
      match incoming with
      | [] => ([], RRes.err "read error")
      | frame :: rest =>
        if frame.getD 4 0 = RESEND then
          let out := readPacketData sendPcks (trials + 1) rest
          (sendPcks ++ out.1, out.2)
        else ([], RRes.ok (frame, rest))

/-- `binary.BigEndian.Uint16(head)`: bytes 0-1, most significant first. -/
def uint16BE (b : List Nat) : Nat := 256 * b.getD 0 0 + b.getD 1 0

/-- `binary.BigEndian.Uint32(head)`: bytes 0-3, most significant first. -/
def uint32BE (b : List Nat) : Nat :=
  ((b.getD 0 0 * 256 + b.getD 1 0) * 256 + b.getD 2 0) * 256 + b.getD 3 0

/-- The declared-length decode of `readPacketData` (lines 394-400): a 32-bit
big-endian value over header bytes 0-3 once the handshake is complete and the
negotiated version is at least 315, a 16-bit big-endian value over bytes 0-1
otherwise. -/
def headerLength (handshakeComplete : Bool) (version : Nat) (head : List Nat) : Nat :=
  if handshakeComplete ∧ 315 ≤ version then uint32BE head else uint16BE head

/-- The packet-type decode (line 394): always header byte 4. -/
def headerType (head : List Nat) : Nat := head.getD 4 0

/-- `SaveState` (lines 77-85): push a snapshot of the five data fields onto the
state stack (the out-buffer contents via `Bytes()`, the others as they are). -/
def Session.saveState (s : Session) : Session :=
  { s with states := s.states ++ [⟨s.summary, s.sendPcks, s.inBuffer, s.outBuffer, s.index⟩] }

/-- `LoadState` (lines 87-103): with a non-empty stack, overwrite the five data
fields from the top entry (the out-buffer via reset-and-write) and pop it —
`states[:index]`, or nil when the popped entry was the last. -/
def Session.loadState (s : Session) : Session :=
  match s.states.getLast? with
  | some st =>
    { s with summary := st.summary, sendPcks := st.sendPcks, inBuffer := st.inBuffer,
             outBuffer := st.outBuffer, index := st.index, states := s.states.dropLast }
  | none => s

/-- The state effect of one codec operation between `SaveState` and
`LoadState`: every `Put*` appends bytes to the out-buffer, a codec `read`
advances the cursor and (through its wire fetch) may append a DATA payload to
the in-buffer, and the packet layer may append to `sendPcks` or replace the
summary.  None of them touches the snapshot stack. -/
inductive CodecOp where
  | put (bs : List Nat)
  | appendIn (bs : List Nat)
  | consume (n : Nat)
  | setSummary (x : Option Nat)
  | setSendPcks (l : List (List Nat))

/-- Apply one codec operation to the session. -/
def applyOp (s : Session) : CodecOp → Session
  | CodecOp.put bs => s.appendOut bs
  | CodecOp.appendIn bs => { s with inBuffer := s.inBuffer ++ bs }
  | CodecOp.consume n => { s with index := s.index + n }
  | CodecOp.setSummary x => { s with summary := x }
  | CodecOp.setSendPcks l => { s with sendPcks := l }

/-- Apply a sequence of codec operations left to right. -/
def applyOps (s : Session) (ops : List CodecOp) : Session := ops.foldl applyOp s

/-- `ResetBuffer` (lines 254-261): clear summary, sent-packet list, both
buffers and the cursor; the snapshot stack is untouched. -/
def Session.resetBuffer (s : Session) : Session :=
  { s with summary := none, sendPcks := [], inBuffer := [], outBuffer := [], index := 0 }

/-- `writePacket` (lines 344-355) as it affects the session: the serialized
packet is appended to `sendPcks` before the wire write (the write itself is
taken as succeeding here). -/
def Session.writePck (s : Session) (bs : List Nat) : Session :=
  { s with sendPcks := s.sendPcks ++ [bs] }

/-- Modelled from the spec: the serialized bytes of the outbound
acknowledgement MARKER of type 2 (`newMarkerPacket(2, ...)`; `packet.go` is
not among the provided sources).  Only its presence in `sendPcks` matters to
the claims, not the exact bytes. -/
def markerAckBytes : List Nat := [2]

/-- An inbound packet as `readPacket`'s dispatcher sees it, for the marker
path: the parsers that classify raw frames (`newMarkerPacketFromData`,
`newDataPacketFromData`) live in `packet.go`, outside the provided sources, so
frames are modelled structurally — a DATA payload, a MARKER with its type and
data bytes, or any other packet. -/
inductive Frame where
  | data (payload : List Nat)
  | marker (mtype mdata : Nat)
  | other
deriving DecidableEq

/-- The marker classification switch (lines 495-506 and 520-531):
type 0 is a break, type 1 with data 2 is a reset, type 1 with any other data
is a break, anything else is the fatal `unknown marker type`.  The result is
`(breakConnection, resetConnection)`. -/
def markerClass (mtype mdata : Nat) : Option (Bool × Bool) :=
  if mtype = 0 then some (true, false)
  else if mtype = 1 then (if mdata = 2 then some (false, true) else some (true, false))
  else none

/-- The drain loop of the MARKER path (lines 507-533): while a break is
signalled and no reset has been seen, read further frames — each must be a
marker — reclassifying each time, at most 3 further reads.  Returns the reset
flag and the frames still pending. -/
def drainMarkers : List Frame → Nat → Bool → Bool → RRes (Bool × List Frame)
  | [], trials, breakC, resetC =>
    if breakC && !resetC then
      if trials > 3 then RRes.err "connection break" else RRes.err "read error"
    else RRes.ok (resetC, [])
  | f :: rest, trials, breakC, resetC =>
    if breakC && !resetC then
      if trials > 3 then RRes.err "connection break"
      else
        match f with
        | Frame.marker t d =>
          match markerClass t d with
          | some (b, r) => drainMarkers rest (trials + 1) b r
          | none => RRes.err "unknown marker type"
        | _ => RRes.err "connection break"
    else RRes.ok (resetC, f :: rest)

/-- The MARKER arm of `readPacket` (lines 491-574), parameterized by the
summary parser (`NewSummary` is outside the provided sources; it consumes
session bytes and yields the summary's return code).  After a successful drain
the buffers are cleared, the type-2 acknowledgement marker is written, the
follow-up frame must be DATA and becomes the new in-buffer with cursor 0, one
message byte is read, and a leading `4` triggers the summary parse — a
non-zero return code surfaces as the Oracle error.  Every successful exit is
the `fallthrough` into `default`: packet nil *and* error nil, `ok (none, ...)`.
The advanced-service hash reinitialization on reset (lines 539-544) touches no
modelled state and is taken as succeeding. -/
def processMarker (parseSummary : Session → RRes (Nat × Session)) (s : Session)
    (mtype mdata : Nat) (frames : List Frame) :
    RRes (Option Frame × Session × List Frame) :=
  match markerClass mtype mdata with
  | none => RRes.err "unknown marker type"
  | some (b, r) =>
    match drainMarkers frames 1 b r with
    | RRes.err e => RRes.err e
    | RRes.crash => RRes.crash
    | RRes.ok (_, frames1) =>
      let s2 := (s.resetBuffer).writePck markerAckBytes
      match frames1 with
      | Frame.data payload :: rest =>
        let s3 := { s2 with inBuffer := payload, index := 0 }
        match s3.getByte with
        | RRes.err e => RRes.err e
        | RRes.crash => RRes.crash
        | RRes.ok (msg, s4) =>
          if msg = 4 then
            match parseSummary s4 with
            | RRes.err e => RRes.err e
            | RRes.crash => RRes.crash
            | RRes.ok (retCode, s5) =>
              if retCode ≠ 0 then RRes.err "oracle error"
              else RRes.ok (none, { s5 with summary := some retCode }, rest)
          else RRes.ok (none, s4, rest)
      | _ :: _ => RRes.err "connection break"
      | [] => RRes.err "read error"

/-- The dispatcher of `readPacket` (lines 444-575) over structured frames:
DATA and the non-marker variants are returned as packets, a MARKER enters the
marker path.  Result: the returned packet (`none` is Go's nil packet with nil
error), the session, and the frames still pending. -/
def readPacketM (parseSummary : Session → RRes (Nat × Session)) (s : Session)
    (frames : List Frame) : RRes (Option Frame × Session × List Frame) :=
  match frames with
  | [] => RRes.err "read error"
  | Frame.data p :: rest => RRes.ok (some (Frame.data p), s, rest)
  | Frame.marker t d :: rest => processMarker parseSummary s t d rest
  | Frame.other :: rest => RRes.ok (some Frame.other, s, rest)

/-- `read` (lines 323-338) with the wire attached: when the in-buffer lacks the
requested bytes, read one packet; only a DATA packet's payload is appended to
the in-buffer — any other outcome, including the marker path's nil-packet
nil-error return, is the error `the packet received is not data packet`.  The
slice after the append is unguarded in the source, so a still-short buffer is
a runtime panic. -/
def readM (parseSummary : Session → RRes (Nat × Session)) (s : Session)
    (frames : List Frame) (numBytes : Nat) :
    RRes (List Nat × Session × List Frame) :=
  if s.index + numBytes ≤ s.inBuffer.length then
    RRes.ok ((s.inBuffer.drop s.index).take numBytes,
      { s with index := s.index + numBytes }, frames)
  else
    match readPacketM parseSummary s frames with
    | RRes.ok (some (Frame.data p), s1, rest) =>
      let s2 := { s1 with inBuffer := s1.inBuffer ++ p }
      if s2.index + numBytes ≤ s2.inBuffer.length then
        RRes.ok ((s2.inBuffer.drop s2.index).take numBytes,
          { s2 with index := s2.index + numBytes }, rest)
      else RRes.crash
    | RRes.ok (_, _, _) => RRes.err "the packet received is not data packet"
    | RRes.err e => RRes.err e
    | RRes.crash => RRes.crash

/-- Claim C1 (code bug), evaluated at the failing input: with
`UseBigClrChunks = false` and the default `ClrChunkSize = 0x40`, `PutClr` of a
253-byte string (the boundary length 0xFD) emits the chunked form whose first
chunk carries the length byte `0x40` = 64 — and `GetClr`'s small-chunks loop
rejects every length byte ≥ 64, so decoding the encoder's own output fails
with `invalid chunk size: 64` instead of returning the string.  The claimed
round trip therefore does not hold in small-chunks mode for any length above
0xFC.  For contrast, the same length round-trips in big-chunks mode, whose
4-byte compressed chunk lengths the decoder accepts. -/
theorem C1_small_chunks_decode_rejects_encoder_output :
    ((Session.putClr {} (List.replicate 253 0)).outBuffer.take 2 = [0xFE, 64] ∧
    Session.getClr { inBuffer := (Session.putClr {} (List.replicate 253 0)).outBuffer } 300 =
      RRes.err "invalid chunk size: 64") ∧
    (let encB := (Session.putClr { useBigClrChunks := true } (List.replicate 253 7)).outBuffer
    Session.getClr { useBigClrChunks := true, inBuffer := encB } 300 =
      RRes.ok (List.replicate 253 7,
        { useBigClrChunks := true, inBuffer := encB, index := encB.length })) := by decide

/-- Claim C2 (code bug), evaluated at the failing input: `PutInt(-1, size=2,
bigEndian=true, compress=true)` writes the length byte `2 & 0x80 = 0` followed
by the eight two's-complement bytes `0xFF`, so the matching
`GetInt64(2, compress=true, bigEndian=true)` consumes the zero length byte and
returns 0 — the sign (and the value) of `v = -1` is lost, not preserved, and
eight stray bytes remain in the stream. -/
theorem C2_compressed_negative_not_roundtripped :
    (Session.putInt {} (-1) 2 true true).outBuffer =
      [0, 255, 255, 255, 255, 255, 255, 255, 255] ∧
    Session.getInt64 { inBuffer := [0, 255, 255, 255, 255, 255, 255, 255, 255] } 2 true true =
      RRes.ok (0, { inBuffer := [0, 255, 255, 255, 255, 255, 255, 255, 255], index := 1 }) ∧
    (0 : Int) ≠ -1 := by decide

/-- Claim C3 (code bug), evaluated at the failing input: for `v = -1`,
`size = 2`, the claimed encoding is the length byte `1 ||| 0x80 = 0x81`
followed by the single magnitude byte `0x01`; the code instead writes
`2 &&& 0x80 = 0` as the length byte followed by the eight two's-complement
bytes of `-1` (the magnitude buffer is built before the sign test and never
rebuilt from the absolute value). -/
theorem C3_compressed_negative_encoding_wrong :
    (Session.putInt {} (-1) 2 true true).outBuffer =
      [0, 255, 255, 255, 255, 255, 255, 255, 255] ∧
    (Session.putInt {} (-1) 2 true true).outBuffer ≠ [0x81, 0x01] := by decide

/-- The REDIRECT body of the spec's redirect scenario:
`"newhost:1522\x00connData123"`. -/
def redirectBodyExample : List Nat :=
  [110, 101, 119, 104, 111, 115, 116, 58, 49, 53, 50, 50, 0,
   99, 111, 110, 110, 68, 97, 116, 97, 49, 50, 51]

/-- The bytes of `"connData123"`. -/
def connDataExample : List Nat := [99, 111, 110, 110, 68, 97, 116, 97, 49, 50, 51]

/-- Claim C4 counterexample: on the spec's own example body
`"newhost:1522\x00connData123"` with flag bit `0x02` set, the reconnect data
the code stores (and `Connect` copies into `connOption.connData`) is
`data[length:]` — the suffix *including* the null byte — not the claimed
suffix after the null. -/
theorem C4_reconnect_data_keeps_null :
    (redirectSplit 2 redirectBodyExample).2 = 0 :: connDataExample ∧
    (redirectSplit 2 redirectBodyExample).2 ≠ connDataExample := by decide

/-- Claim C4 (amended): when the packet's flag has bit `0x02` set and the body
has its first null byte at an index `k > 0`, the redirect address is the `k`
bytes before the null and the reconnect data is the suffix of the body
starting at the null — the null byte included; when no null is found at an
index > 0 (none at all, or the first one at index 0), or the flag bit is
clear, the full body is the redirect address and the reconnect data is
empty. -/
theorem C4_redirect_split (flag : Nat) (data : List Nat) :
    (∀ k, data.findIdx? (· == 0) = some k → flag &&& 2 ≠ 0 → 0 < k →
      redirectSplit flag data = (data.take k, data.drop k)) ∧
    (data.findIdx? (· == 0) = none ∨ data.findIdx? (· == 0) = some 0 →
      redirectSplit flag data = (data, [])) ∧
    (flag &&& 2 = 0 → redirectSplit flag data = (data, [])) := by
  refine ⟨fun k hk hflag hpos => ?_, fun hk => ?_, fun hflag => ?_⟩
  · simp [redirectSplit, hk, hflag, hpos]
  · rcases hk with hk | hk <;> simp [redirectSplit, hk]
  · unfold redirectSplit
    cases h : data.findIdx? (· == 0) with
    | none => rfl
    | some k => simp [hflag]

/-- Witness for the amended claim C4, at the spec's example body. -/
theorem C4_redirect_split_witness :
    redirectSplit 2 redirectBodyExample =
      (redirectBodyExample.take 12, redirectBodyExample.drop 12) :=
  (C4_redirect_split 2 redirectBodyExample).1 12 (by decide) (by decide) (by decide)

/-- With enough fuel, the concatenation of the segments `segLoop` emits is the
original buffer. -/
theorem segLoop_flatten (L : Nat) (hL : 1 ≤ L) :
    ∀ fuel data, data.length ≤ fuel → (segLoop L data fuel).flatten = data := by
  intro fuel
  induction fuel with
  | zero =>
    intro data h
    have hd : data = [] := List.length_eq_zero.mp (Nat.le_zero.mp h)
    subst hd; rfl
  | succ n ih =>
    intro data h
    unfold segLoop
    by_cases h1 : L < data.length
    · simp only [h1, if_true, List.flatten_cons]
      rw [ih (data.drop L) (by simp [List.length_drop]; omega)]
      exact List.take_append_drop L data
    · by_cases h2 : data.length ≠ 0
      · simp [h1, h2]
      · simp only [not_not] at h2
        simp [h1, h2, List.length_eq_zero.mp h2]

/-- Every segment `segLoop` emits has at most `L` bytes. -/
theorem segLoop_mem_length (L : Nat) :
    ∀ fuel data, ∀ p ∈ segLoop L data fuel, p.length ≤ L := by
  intro fuel
  induction fuel with
  | zero => intro data p hp; simp [segLoop] at hp
  | succ n ih =>
    intro data p hp
    unfold segLoop at hp
    by_cases h1 : L < data.length
    · simp only [h1, if_true, List.mem_cons] at hp
      rcases hp with rfl | hp
      · simp [List.length_take]
      · exact ih _ p hp
    · by_cases h2 : data.length ≠ 0
      · rw [if_neg h1, if_pos h2, List.mem_singleton] at hp
        subst hp; omega
      · simp [h1, h2] at hp

/-- With enough fuel and a non-empty buffer, `segLoop` emits exactly
`⌈data.length / L⌉` segments. -/
theorem segLoop_length (L : Nat) (hL : 1 ≤ L) :
    ∀ fuel data, data.length ≤ fuel → data ≠ [] →
      (segLoop L data fuel).length = (data.length + L - 1) / L := by
  intro fuel
  induction fuel with
  | zero =>
    intro data h hne
    exact absurd (List.length_eq_zero.mp (Nat.le_zero.mp h)) hne
  | succ n ih =>
    intro data h hne
    unfold segLoop
    by_cases h1 : L < data.length
    · simp only [h1, if_true, List.length_cons]
      have hdrop : (data.drop L).length = data.length - L := by simp [List.length_drop]
      have hne2 : data.drop L ≠ [] := by
        intro he
        rw [he] at hdrop
        simp at hdrop
        omega
      rw [ih (data.drop L) (by omega) hne2, hdrop]
      have e1 : data.length - L + L - 1 = data.length - 1 := by omega
      have e2 : data.length + L - 1 = (data.length - 1) + L := by omega
      rw [e1, e2, Nat.add_div_right _ (by omega)]
    · have hlen : data.length ≠ 0 := fun he => hne (List.length_eq_zero.mp he)
      rw [if_neg h1, if_pos hlen, List.length_singleton]
      have e2 : data.length + L - 1 = (data.length - 1) + L := by omega
      rw [e2, Nat.add_div_right _ (by omega), Nat.div_eq_of_lt (by omega)]

/-- Claim C5: for a buffered out-stream of `N > 0` bytes, `Write` emits exactly
`⌈N / (SessionDataUnit - 20)⌉` DATA packets, each payload at most
`SessionDataUnit - 20` bytes, and the payloads concatenated in emission order
are the buffered bytes; an empty out-buffer yields exactly one DATA packet
with an empty payload.  (`SessionDataUnit ≥ 21` keeps the segment size
positive; at 20 the source's loop would not terminate.) -/
theorem C5_write_segmentation (sdu : Nat) (out : List Nat) (hsdu : 21 ≤ sdu) :
    (out.length ≠ 0 →
      (sessionWrite sdu out).length = (out.length + (sdu - 20) - 1) / (sdu - 20) ∧
      (∀ p ∈ sessionWrite sdu out, p.length ≤ sdu - 20) ∧
      (sessionWrite sdu out).flatten = out) ∧
    (out.length = 0 → sessionWrite sdu out = [[]]) := by
  have hL : 1 ≤ sdu - 20 := by omega
  constructor
  · intro hne
    have hnil : out ≠ [] := fun he => hne (by simp [he])
    unfold sessionWrite
    rw [if_neg hne]
    exact ⟨segLoop_length _ hL _ _ le_rfl hnil,
           fun p hp => segLoop_mem_length _ _ _ p hp,
           segLoop_flatten _ hL _ _ le_rfl⟩
  · intro h0
    unfold sessionWrite
    rw [if_pos h0]

/-- Witness for claim C5 at a concrete buffer: `SessionDataUnit = 22`
(segments of 2) and a 3-byte buffer give 2 packets rejoining to the buffer. -/
theorem C5_write_segmentation_witness :
    (sessionWrite 22 [1, 2, 3]).length = 2 ∧
    (sessionWrite 22 [1, 2, 3]).flatten = [1, 2, 3] := by
  have h := (C5_write_segmentation 22 [1, 2, 3] (by decide)).1 (by decide)
  exact ⟨by rw [h.1]; decide, h.2.2⟩

/-- Claim C6: a RESEND frame makes the packet-read loop write the serialized
bytes of all `k` packets in `sendPcks` — byte-for-byte, in their original send
order — to the transport before anything else, and then continue reading (so
the eventual result, and all further writes, come from the rest of the
stream); moreover no successful `readPacket` result is ever a RESEND frame —
it is absorbed inside the loop.  (`writePacket` appends each packet to
`sendPcks` before its wire write, so the list holds exactly the packets
written so far.) -/
theorem C6_resend_replay (sendPcks rest : List (List Nat)) (resendFrame : List Nat)
    (trials : Nat) (hframe : resendFrame.getD 4 0 = RESEND) (htrials : trials ≤ 3) :
    readPacketData sendPcks trials (resendFrame :: rest) =
      (sendPcks ++ (readPacketData sendPcks (trials + 1) rest).1,
       (readPacketData sendPcks (trials + 1) rest).2) ∧
    (∀ t frames frame rest2, (readPacketData sendPcks t frames).2 = RRes.ok (frame, rest2) →
      frame.getD 4 0 ≠ RESEND) := by
  constructor
  · rw [readPacketData]
    rw [if_neg (by omega), if_pos hframe]
  · intro t frames
    induction frames generalizing t with
    | nil =>
      intro frame rest2 h
      rw [readPacketData] at h
      by_cases ht : t > 3 <;> simp [ht] at h
    | cons f fs ih =>
      intro frame rest2 h
      rw [readPacketData] at h
      by_cases ht : t > 3
      · simp [ht] at h
      · rw [if_neg ht] at h
        by_cases hf : f.getD 4 0 = RESEND
        · rw [if_pos hf] at h
          exact ih (t + 1) frame rest2 h
        · rw [if_neg hf] at h
          simp only [RRes.ok.injEq, Prod.mk.injEq] at h
          rcases h with ⟨rfl, rfl⟩
          exact hf

/-- Witness for claim C6: two sent packets are replayed, in order, before the
following DATA frame is returned. -/
theorem C6_resend_replay_witness :
    readPacketData [[9], [8]] 0 [[0, 0, 0, 0, 11, 0, 0, 0], [0, 20, 0, 0, 6, 0, 0, 0]] =
      ([[9], [8]], RRes.ok ([0, 20, 0, 0, 6, 0, 0, 0], [])) := by
  have h := (C6_resend_replay [[9], [8]] [[0, 20, 0, 0, 6, 0, 0, 0]]
    [0, 0, 0, 0, 11, 0, 0, 0] 0 (by decide) (by decide)).1
  exact h.trans (by decide)

/-- Claim C7: for every 8-byte header, the declared packet length is the
big-endian 16-bit value of bytes 0-1 whenever the handshake is incomplete or
the negotiated version is below 315, and the big-endian 32-bit value of bytes
0-3 whenever the handshake is complete and the version is at least 315; byte 4
is always the packet-type tag. -/
theorem C7_header_length_width (hs : Bool) (version : Nat)
    (b0 b1 b2 b3 b4 b5 b6 b7 : Nat) :
    ((hs = false ∨ version < 315) →
      headerLength hs version [b0, b1, b2, b3, b4, b5, b6, b7] = 256 * b0 + b1) ∧
    ((hs = true ∧ 315 ≤ version) →
      headerLength hs version [b0, b1, b2, b3, b4, b5, b6, b7] =
        ((b0 * 256 + b1) * 256 + b2) * 256 + b3) ∧
    headerType [b0, b1, b2, b3, b4, b5, b6, b7] = b4 := by
  refine ⟨fun h => ?_, fun h => ?_, rfl⟩
  · unfold headerLength
    rw [if_neg ?_]
    · rfl
    · rcases h with h | h
      · rintro ⟨h1, -⟩; rw [h] at h1; exact Bool.false_ne_true h1
      · rintro ⟨-, h2⟩; omega
  · unfold headerLength
    rw [if_pos ⟨by rw [h.1], h.2⟩]
    rfl

/-- Witness for claim C7: a post-handshake version-318 header uses all four
length bytes; a pre-handshake header uses only the first two. -/
theorem C7_header_length_width_witness :
    headerLength true 318 [0, 0, 1, 0, 6, 0, 0, 0] = ((0 * 256 + 0) * 256 + 1) * 256 + 0 ∧
    headerLength false 318 [0, 5, 1, 0, 6, 0, 0, 0] = 256 * 0 + 5 :=
  ⟨(C7_header_length_width true 318 0 0 1 0 6 0 0 0).2.1 ⟨rfl, by omega⟩,
   (C7_header_length_width false 318 0 5 1 0 6 0 0 0).1 (Or.inl rfl)⟩

/-- The last element of a stack after a push. -/
theorem snocGetLast {α : Type} (l : List α) (a : α) : (l ++ [a]).getLast? = some a := by
  rw [List.getLast?_append_cons]
  rfl

/-- Popping the element just pushed restores the stack. -/
theorem snocDropLast {α : Type} (l : List α) (a : α) : (l ++ [a]).dropLast = l := by
  induction l with
  | nil => rfl
  | cons x xs ih =>
    rw [List.cons_append, List.dropLast_cons_of_ne_nil (by simp), ih]

/-- Codec operations never touch the snapshot stack. -/
theorem applyOps_states (ops : List CodecOp) : ∀ s : Session, (applyOps s ops).states = s.states := by
  induction ops with
  | nil => intro s; rfl
  | cons op ops ih =>
    intro s
    show (applyOps (applyOp s op) ops).states = s.states
    rw [ih]
    cases op <;> rfl

/-- Claim C8: `SaveState` followed by any sequence of codec operations
followed by `LoadState` restores `Summary`, `sendPcks`, `inBuffer`, the
out-buffer contents and `index` to their values at the time of `SaveState`,
and pops exactly the one entry `SaveState` pushed — the snapshot stack is back
to what it was, in particular empty when the popped entry was its last. -/
theorem C8_save_load_restores (s : Session) (ops : List CodecOp) :
    ((applyOps s.saveState ops).loadState).summary = s.summary ∧
    ((applyOps s.saveState ops).loadState).sendPcks = s.sendPcks ∧
    ((applyOps s.saveState ops).loadState).inBuffer = s.inBuffer ∧
    ((applyOps s.saveState ops).loadState).outBuffer = s.outBuffer ∧
    ((applyOps s.saveState ops).loadState).index = s.index ∧
    ((applyOps s.saveState ops).loadState).states = s.states := by
  have hst : (applyOps s.saveState ops).states =
      s.states ++ [⟨s.summary, s.sendPcks, s.inBuffer, s.outBuffer, s.index⟩] := by
    rw [applyOps_states]
    rfl
  unfold Session.loadState
  rw [hst, snocGetLast, snocDropLast]
  exact ⟨rfl, rfl, rfl, rfl, rfl, rfl⟩

/-- Claim C9: `GetString(length)` returns the first `length` bytes of the CLR
value decoded by `GetClr` exactly when that value holds at least `length`
bytes; when the decoded CLR is shorter, the slice `ret[:length]` is out of
range — the call has no result (a runtime panic), rather than a truncated or
padded string. -/
theorem C9_getString_partial (s : Session) (fuel length : Nat) (ret : List Nat)
    (s1 : Session) (h : s.getClr fuel = RRes.ok (ret, s1)) :
    (length ≤ ret.length → s.getString length fuel = RRes.ok (ret.take length, s1)) ∧
    (ret.length < length → s.getString length fuel = RRes.crash) := by
  constructor
  · intro hle
    simp only [Session.getString, h, if_pos hle]
  · intro hlt
    simp only [Session.getString, h,
      if_neg (show ¬ length ≤ ret.length by omega)]

/-- Witness for claim C9: a null CLR (size byte `0x00`) decodes to the empty
value, so `GetString 1` has no result while `GetString 0` returns empty. -/
theorem C9_getString_partial_witness :
    Session.getString { inBuffer := [0] } 1 1 = RRes.crash ∧
    Session.getString { inBuffer := [0] } 0 1 = RRes.ok ([], { inBuffer := [0], index := 1 }) := by
  have h1 := C9_getString_partial { inBuffer := [0] } 1 1 [] { inBuffer := [0], index := 1 } (by decide)
  have h0 := C9_getString_partial { inBuffer := [0] } 1 0 [] { inBuffer := [0], index := 1 } (by decide)
  exact ⟨h1.2 (by decide), (h0.1 (by decide)).trans (by decide)⟩

/-- Claim C10: when `readPacket` receives a MARKER that completes the reset
path successfully — here the immediate reset marker `(type=1, data=2)`, the
buffers cleared, the type-2 acknowledgement written, the follow-up DATA
payload installed as the new in-buffer at cursor 0, and either a message byte
other than 4 (no summary) or a parsed summary with return code 0 — it returns
a nil packet together with a nil error (`ok (none, ...)`); consequently a
codec `read(n)` whose wire fetch took this path fails with
`the packet received is not data packet` instead of serving bytes from the
newly installed buffer. -/
theorem C10_marker_reset_nil (ps : Session → RRes (Nat × Session)) (s : Session)
    (m : Nat) (tl : List Nat) (rest : List Frame) (n : Nat)
    (hwire : s.inBuffer.length < s.index + n)
    (hmsg : m ≠ 4 ∨
      (∃ s2, ps { (s.resetBuffer).writePck markerAckBytes with
                  inBuffer := m :: tl, index := 1 } = RRes.ok (0, s2))) :
    (∃ s3, readPacketM ps s (Frame.marker 1 2 :: Frame.data (m :: tl) :: rest) =
      RRes.ok (none, s3, rest)) ∧
    readM ps s (Frame.marker 1 2 :: Frame.data (m :: tl) :: rest) n =
      RRes.err "the packet received is not data packet" := by
  have hgb : Session.getByte { (s.resetBuffer).writePck markerAckBytes with
      inBuffer := m :: tl, index := 0 } =
      RRes.ok (m, { (s.resetBuffer).writePck markerAckBytes with
        inBuffer := m :: tl, index := 1 }) := by
    unfold Session.getByte Session.read
    rw [if_pos (by simp)]
    rfl
  have hmid : readPacketM ps s (Frame.marker 1 2 :: Frame.data (m :: tl) :: rest) =
      (match Session.getByte { (s.resetBuffer).writePck markerAckBytes with
          inBuffer := m :: tl, index := 0 } with
      | RRes.err e => RRes.err e
      | RRes.crash => RRes.crash
      | RRes.ok (msg, s4) =>
        if msg = 4 then
          match ps s4 with
          | RRes.err e => RRes.err e
          | RRes.crash => RRes.crash
          | RRes.ok (retCode, s5) =>
            if retCode ≠ 0 then RRes.err "oracle error"
            else RRes.ok (none, { s5 with summary := some retCode }, rest)
        else RRes.ok (none, s4, rest)) := rfl
  have hred : readPacketM ps s (Frame.marker 1 2 :: Frame.data (m :: tl) :: rest) =
      (if m = 4 then
        match ps { (s.resetBuffer).writePck markerAckBytes with
                   inBuffer := m :: tl, index := 1 } with
        | RRes.err e => RRes.err e
        | RRes.crash => RRes.crash
        | RRes.ok (retCode, s5) =>
          if retCode ≠ 0 then RRes.err "oracle error"
          else RRes.ok (none, { s5 with summary := some retCode }, rest)
      else RRes.ok (none, { (s.resetBuffer).writePck markerAckBytes with
                            inBuffer := m :: tl, index := 1 }, rest)) := by
    rw [hmid, hgb]
  have hpart1 : ∃ s3, readPacketM ps s (Frame.marker 1 2 :: Frame.data (m :: tl) :: rest) =
      RRes.ok (none, s3, rest) := by
    by_cases hm : m = 4
    · have hps := hmsg.resolve_left (by simp [hm])
      obtain ⟨s2, hps⟩ := hps
      refine ⟨{ s2 with summary := some 0 }, ?_⟩
      rw [hred, if_pos hm, hps]
      rfl
    · exact ⟨_, by rw [hred, if_neg hm]⟩
  obtain ⟨s3, hr⟩ := hpart1
  refine ⟨⟨s3, hr⟩, ?_⟩
  unfold readM
  rw [if_neg (show ¬ (s.index + n ≤ s.inBuffer.length) by omega), hr]

/-- Witness for claim C10: an empty session asked for one byte, with the wire
delivering a reset marker then a DATA payload `[7]` (message byte 7, no
summary), yields the non-data-packet error. -/
theorem C10_marker_reset_nil_witness :
    (∃ s3, readPacketM (fun t => RRes.ok (0, t)) {} [Frame.marker 1 2, Frame.data [7]] =
      RRes.ok (none, s3, [])) ∧
    readM (fun t => RRes.ok (0, t)) {} [Frame.marker 1 2, Frame.data [7]] 1 =
      RRes.err "the packet received is not data packet" :=
  C10_marker_reset_nil (fun t => RRes.ok (0, t)) {} 7 [] [] 1 (by decide)
    (Or.inl (by decide))
